import Mathlib

/- Verification of the BrowseVCF wormtable storage layer
   (src/web/wormtable/tables.py and src/web/wormtable/wtadmin.py),
   as a shallow embedding in Lean 4. -/

namespace Wormtable

/-! Decimal rendering and parsing.

Python's str() on a nonnegative int produces its decimal digits, and
Python's int() parses them back.  These model that pair of functions on
the strings the serializer actually emits (nonempty digit strings). -/

/-- Character of a single decimal digit, as produced by Python str. -/
def digitChar (d : Nat) : Char := Char.ofNat (48 + d)

/-- Fuel-driven decimal rendering of a natural number; fuel of at least
n + 1 always suffices. -/
def toDecAux : Nat → Nat → List Char
  | 0, _ => []
  | f + 1, n =>
    if n < 10 then [digitChar n]
    else toDecAux f (n / 10) ++ [digitChar (n % 10)]

/-- Python str applied to a nonnegative integer. -/
def toDecimal (n : Nat) : String := String.mk (toDecAux (n + 1) n)

/-- Python str applied to an integer (possibly negative). -/
def intToDecimal (v : Int) : String :=
  if v < 0 then "-" ++ toDecimal (-v).toNat else toDecimal v.toNat

/-- Numeric value of a decimal digit character. -/
def parseDigit (c : Char) : Option Nat :=
  if 48 ≤ c.toNat ∧ c.toNat ≤ 57 then some (c.toNat - 48) else none

/-- Left-to-right accumulation of decimal digits. -/
def parseDecAux : List Char → Nat → Option Nat
  | [], acc => some acc
  | c :: cs, acc =>
    match parseDigit c with
    | some d => parseDecAux cs (10 * acc + d)
    | none => none

/-- Python int() on a string, restricted to the nonempty all-digit
strings the metadata serializer emits; anything else is a ValueError,
modelled as none. -/
def parseDecimal (s : String) : Option Nat :=
  match s.data with
  | [] => none
  | c :: cs => parseDecAux (c :: cs) 0

theorem toDecAux_fuel (n : Nat) : ∀ f g : Nat, n < f → n < g →
    toDecAux f n = toDecAux g n := by
  induction n using Nat.strong_induction_on with
  | _ n ih =>
    intro f g hf hg
    match f, g with
    | f + 1, g + 1 =>
      simp only [toDecAux]
      by_cases h : n < 10
      · simp [h]
      · have hlt : n / 10 < n := Nat.div_lt_self (by omega) (by omega)
        simp only [h, if_false]
        rw [ih (n / 10) hlt f g (by omega) (by omega)]

theorem toDecAux_ne_nil (n f : Nat) (h : n < f) : toDecAux f n ≠ [] := by
  match f with
  | f + 1 =>
    simp only [toDecAux]
    by_cases h10 : n < 10 <;> simp [h10]

theorem parseDecAux_append (l₁ l₂ : List Char) (acc : Nat) :
    parseDecAux (l₁ ++ l₂) acc =
      match parseDecAux l₁ acc with
      | some a => parseDecAux l₂ a
      | none => none := by
  induction l₁ generalizing acc with
  | nil => simp [parseDecAux]
  | cons c cs ih =>
    simp only [List.cons_append, parseDecAux]
    cases parseDigit c with
    | some d => simp [ih]
    | none => simp

theorem parseDigit_digitChar (d : Nat) (h : d < 10) :
    parseDigit (digitChar d) = some d := by
  interval_cases d <;> rfl

theorem parseDecAux_toDecAux (n : Nat) : ∀ f acc : Nat, n < f →
    parseDecAux (toDecAux f n) acc =
      some (acc * 10 ^ (toDecAux f n).length + n) := by
  induction n using Nat.strong_induction_on with
  | _ n ih =>
    intro f acc hf
    match f with
    | f + 1 =>
      by_cases h10 : n < 10
      · simp only [toDecAux, h10, if_true, parseDecAux,
          parseDigit_digitChar n h10, List.length_singleton]
        congr 1
        ring
      · have hlt : n / 10 < n := Nat.div_lt_self (by omega) (by omega)
        simp only [toDecAux, h10, if_false]
        rw [parseDecAux_append]
        rw [ih (n / 10) hlt f acc (by omega)]
        simp only [parseDecAux, parseDigit_digitChar (n % 10) (by omega),
          List.length_append, List.length_singleton]
        have hdm : 10 * (n / 10) + n % 10 = n := Nat.div_add_mod n 10
        congr 1
        set L := (toDecAux f (n / 10)).length with hL
        calc 10 * (acc * 10 ^ L + n / 10) + n % 10
            = acc * (10 ^ L * 10) + (10 * (n / 10) + n % 10) := by ring
          _ = acc * 10 ^ (L + 1) + n := by rw [hdm, pow_succ]

theorem parseDecimal_toDecimal (n : Nat) :
    parseDecimal (toDecimal n) = some n := by
  have hne := toDecAux_ne_nil n (n + 1) (Nat.lt_succ_self n)
  have hmain := parseDecAux_toDecAux n (n + 1) 0 (Nat.lt_succ_self n)
  simp only [toDecimal, parseDecimal]
  cases hd : toDecAux (n + 1) n with
  | nil => exact absurd hd hne
  | cons c cs =>
    rw [hd] at hmain
    simpa using hmain

theorem toDecimal_ne_var1 (n : Nat) : toDecimal n ≠ "var(1)" := by
  intro h
  have := parseDecimal_toDecimal n
  rw [h] at this
  simp [parseDecimal, parseDecAux, parseDigit] at this

theorem toDecimal_ne_var2 (n : Nat) : toDecimal n ≠ "var(2)" := by
  intro h
  have := parseDecimal_toDecimal n
  rw [h] at this
  simp [parseDecimal, parseDecAux, parseDigit] at this

/-! Schema and metadata model (tables.py, classes Column and Table).

Column names and descriptions are Python byte strings; they are decoded
as UTF-8 on access and re-encoded when parsing, which is the identity on
valid data, so both live here as Lean strings. -/

/-- Version string TABLE_METADATA_VERSION from tables.py. -/
def TABLE_METADATA_VERSION : String := "0.3"

/-- Column element types WT_INT, WT_UINT, WT_FLOAT, WT_CHAR. -/
inductive ElementType
  | int
  | uint
  | float
  | char
deriving DecidableEq

/-- Column arity: a fixed element count, or the WT_VAR_1 / WT_VAR_2
variable-arity sentinels. -/
inductive NumElements
  | fixed (k : Nat)
  | var1
  | var2
deriving DecidableEq

/-- An ElementTree element: tag, attribute list, child elements. -/
structure XmlElem where
  tag : String
  attrs : List (String × String)
  children : List XmlElem

/-- Element.get(key): the value of an attribute, or None. -/
def XmlElem.get (x : XmlElem) (k : String) : Option String :=
  (x.attrs.find? (fun p => p.1 == k)).map (fun p => p.2)

/-- Element.find(tag): the first direct child with the given tag. -/
def XmlElem.findChild (x : XmlElem) (t : String) : Option XmlElem :=
  x.children.find? (fun c => c.tag == t)

/-- Column.ELEMENT_TYPE_STRING_MAP. -/
def elementTypeToString : ElementType → String
  | .int => "int"
  | .uint => "uint"
  | .char => "char"
  | .float => "float"

/-- The reverse dictionary built inside Column.parse_xml; a missing key
is a Python KeyError, modelled as none. -/
def stringToElementType (s : String) : Option ElementType :=
  if s = "int" then some .int
  else if s = "uint" then some .uint
  else if s = "char" then some .char
  else if s = "float" then some .float
  else none

/-- The data carried by a wormtable Column. -/
structure WtColumn where
  name : String
  description : String
  elementType : ElementType
  elementSize : Nat
  numElements : NumElements
deriving DecidableEq

/-- Column.get_xml: serialize one column to an XML element. -/
def columnGetXml (c : WtColumn) : XmlElem :=
  let numElemStr :=
    match c.numElements with
    | .var1 => "var(1)"
    | .var2 => "var(2)"
    | .fixed k => toDecimal k
  { tag := "column"
    attrs := [("name", c.name), ("description", c.description),
      ("element_size", toDecimal c.elementSize),
      ("num_elements", numElemStr),
      ("element_type", elementTypeToString c.elementType)]
    children := [] }

/-- Column.parse_xml: parse one XML column description.  Python
exceptions (AttributeError on a missing attribute, ValueError from
int(), KeyError from the reverse type map) are error results. -/
def columnParseXml (x : XmlElem) : Except String WtColumn :=
  if x.tag ≠ "column" then .error "invalid xml"
  else
    match x.get "name" with
    | none => .error "AttributeError: NoneType has no attribute encode"
    | some name =>
      match x.get "description" with
      | none => .error "AttributeError: NoneType has no attribute encode"
      | some description =>
        match x.get "element_size" with
        | none => .error "TypeError: int() argument must not be None"
        | some esStr =>
          match parseDecimal esStr with
          | none => .error "ValueError: invalid literal for int()"
          | some elementSize =>
            match x.get "num_elements" with
            | none => .error "TypeError: int() argument must not be None"
            | some s =>
              let ne : Except String NumElements :=
                if s = "var(1)" then .ok .var1
                else if s = "var(2)" then .ok .var2
                else
                  match parseDecimal s with
                  | none => .error "ValueError: invalid literal for int()"
                  | some k => .ok (.fixed k)
              match ne with
              | .error e => .error e
              | .ok numElements =>
                match x.get "element_type" with
                | none => .error "KeyError"
                | some ts =>
                  match stringToElementType ts with
                  | none => .error "KeyError"
                  | some elementType =>
                    .ok ⟨name, description, elementType, elementSize,
                      numElements⟩

/-- The Table state touched by the metadata code: the ordered column
list and the four statistics. -/
structure WtTable where
  columns : List WtColumn
  numRows : Nat
  totalRowSize : Nat
  minRowSize : Nat
  maxRowSize : Nat
deriving DecidableEq

/-- A freshly constructed Table (Table.__init__). -/
def freshTable : WtTable := ⟨[], 0, 0, 0, 0⟩

/-- Table._generate_schema_xml. -/
def generateSchemaXml (t : WtTable) : XmlElem :=
  { tag := "schema"
    attrs := [("address_size", "2")]
    children := [XmlElem.mk "columns" [] (t.columns.map columnGetXml)] }

/-- Table._generate_stats_xml. -/
def generateStatsXml (t : WtTable) : XmlElem :=
  { tag := "stats"
    attrs := []
    children := [
      XmlElem.mk "stat"
        [("name", "num_rows"), ("value", toDecimal t.numRows)] [],
      XmlElem.mk "stat"
        [("name", "max_row_size"), ("value", toDecimal t.maxRowSize)] [],
      XmlElem.mk "stat"
        [("name", "min_row_size"), ("value", toDecimal t.minRowSize)] [],
      XmlElem.mk "stat"
        [("name", "total_row_size"), ("value", toDecimal t.totalRowSize)] []] }

/-- Table.get_metadata: the root element of the metadata document. -/
def getMetadata (t : WtTable) : XmlElem :=
  { tag := "table"
    attrs := [("version", TABLE_METADATA_VERSION)]
    children := [generateSchemaXml t, generateStatsXml t] }

/-- The loop in Table._parse_schema_xml over the column elements. -/
def parseColumns : List XmlElem → Except String (List WtColumn)
  | [] => .ok []
  | x :: xs =>
    match columnParseXml x with
    | .error e => .error e
    | .ok c =>
      match parseColumns xs with
      | .error e => .error e
      | .ok cs => .ok (c :: cs)

/-- Table._parse_schema_xml: parse the schema element and append its
columns to the table's column list. -/
def parseSchemaXml (t : WtTable) (schema : XmlElem) : Except String WtTable :=
  match schema.findChild "columns" with
  | none => .error "AttributeError: NoneType has no attribute getchildren"
  | some cols =>
    match parseColumns cols.children with
    | .error e => .error e
    | .ok newCols => .ok { t with columns := t.columns ++ newCols }

/-- The int(value) conversion inside a stat branch of
Table._parse_stats_xml. -/
def parseStatValue (stat : XmlElem) : Except String Nat :=
  match stat.get "value" with
  | none => .error "TypeError: int() argument must not be None"
  | some vs =>
    match parseDecimal vs with
    | none => .error "ValueError: invalid literal for int()"
    | some v => .ok v

/-- Table._parse_stats_xml: fold the stat elements into the table
statistics; an unknown stat name is a ValueError. -/
def parseStatsXml : WtTable → List XmlElem → Except String WtTable
  | t, [] => .ok t
  | t, stat :: rest =>
    match stat.get "name" with
    | none => .error "TypeError: cannot concatenate str and NoneType"
    | some nm =>
      if nm = "num_rows" then
        match parseStatValue stat with
        | .error e => .error e
        | .ok v => parseStatsXml { t with numRows := v } rest
      else if nm = "max_row_size" then
        match parseStatValue stat with
        | .error e => .error e
        | .ok v => parseStatsXml { t with maxRowSize := v } rest
      else if nm = "min_row_size" then
        match parseStatValue stat with
        | .error e => .error e
        | .ok v => parseStatsXml { t with minRowSize := v } rest
      else if nm = "total_row_size" then
        match parseStatValue stat with
        | .error e => .error e
        | .ok v => parseStatsXml { t with totalRowSize := v } rest
      else .error ("unknown table statistic '" ++ nm ++ "'")

/-- Table.set_metadata: validate the root tag and version, then parse
the schema and stats children. -/
def setMetadata (t : WtTable) (root : XmlElem) : Except String WtTable :=
  if root.tag = "schema" then
    .error "You are trying to read a table built with a pre-release version of wormtable which is not compatible. You must rebuild this table. Sorry."
  else if root.tag ≠ "table" then .error "invalid xml"
  else
    match root.get "version" with
    | none => .error "invalid xml"
    | some version =>
      if version ∈ [TABLE_METADATA_VERSION] then
        match root.findChild "schema" with
        | none => .error "AttributeError: NoneType has no attribute find"
        | some schema =>
          match parseSchemaXml t schema with
          | .error e => .error e
          | .ok t1 =>
            match root.findChild "stats" with
            | none =>
              .error "AttributeError: NoneType has no attribute getchildren"
            | some stats => parseStatsXml t1 stats.children
      else .error "Unsupported schema version - rebuild required."

theorem stringToElementType_elementTypeToString (et : ElementType) :
    stringToElementType (elementTypeToString et) = some et := by
  cases et <;> rfl

theorem columnParseXml_columnGetXml (c : WtColumn) :
    columnParseXml (columnGetXml c) = .ok c := by
  obtain ⟨name, description, et, es, ne⟩ := c
  simp only [columnGetXml, columnParseXml, XmlElem.get, List.find?]
  cases ne with
  | fixed k =>
    simp [parseDecimal_toDecimal, toDecimal_ne_var1, toDecimal_ne_var2,
      stringToElementType_elementTypeToString]
  | var1 =>
    simp [parseDecimal_toDecimal, stringToElementType_elementTypeToString]
  | var2 =>
    simp [parseDecimal_toDecimal, stringToElementType_elementTypeToString]

theorem parseColumns_map (cols : List WtColumn) :
    parseColumns (cols.map columnGetXml) = .ok cols := by
  induction cols with
  | nil => rfl
  | cons c cs ih =>
    simp only [List.map_cons, parseColumns, columnParseXml_columnGetXml, ih]

theorem setMetadata_getMetadata (t : WtTable) :
    setMetadata freshTable (getMetadata t) = .ok t := by
  obtain ⟨cols, nr, trs, mins, maxs⟩ := t
  simp [setMetadata, getMetadata, generateSchemaXml, generateStatsXml,
    XmlElem.findChild, XmlElem.get, List.find?, freshTable,
    TABLE_METADATA_VERSION, parseSchemaXml, parseColumns_map,
    parseStatsXml, parseStatValue, parseDecimal_toDecimal]

/-- Structural well-formedness of one column element, mirroring what
Column.parse_xml requires to succeed. -/
def columnXmlOkB (x : XmlElem) : Bool :=
  x.tag == "column" &&
  (x.get "name").isSome &&
  (x.get "description").isSome &&
  (match x.get "element_size" with
   | some s => (parseDecimal s).isSome
   | none => false) &&
  (match x.get "num_elements" with
   | some s => s == "var(1)" || s == "var(2)" || (parseDecimal s).isSome
   | none => false) &&
  (match x.get "element_type" with
   | some s => (stringToElementType s).isSome
   | none => false)

/-- Structural well-formedness of one stat element, mirroring what
Table._parse_stats_xml requires to succeed. -/
def statXmlOkB (x : XmlElem) : Bool :=
  (match x.get "name" with
   | some nm => nm == "num_rows" || nm == "max_row_size" ||
       nm == "min_row_size" || nm == "total_row_size"
   | none => false) &&
  (match x.get "value" with
   | some s => (parseDecimal s).isSome
   | none => false)

/-- A well-formed version-0.3 metadata document: root tag table with
version 0.3, a schema child holding a columns element of well-formed
column elements, and a stats child of well-formed stat elements. -/
def wellFormedMetaB (root : XmlElem) : Bool :=
  root.tag == "table" &&
  (match root.get "version" with
   | some v => v == TABLE_METADATA_VERSION
   | none => false) &&
  (match root.findChild "schema" with
   | some schema =>
     match schema.findChild "columns" with
     | some cols => cols.children.all columnXmlOkB
     | none => false
   | none => false) &&
  (match root.findChild "stats" with
   | some stats => stats.children.all statXmlOkB
   | none => false)

theorem columnParseXml_isOk (x : XmlElem) (h : columnXmlOkB x = true) :
    ∃ c, columnParseXml x = .ok c := by
  unfold columnXmlOkB at h
  simp only [Bool.and_eq_true, beq_iff_eq] at h
  obtain ⟨⟨⟨⟨⟨htag, hname⟩, hdesc⟩, hes⟩, hne⟩, het⟩ := h
  obtain ⟨nm, hnm⟩ := Option.isSome_iff_exists.mp hname
  obtain ⟨ds, hds⟩ := Option.isSome_iff_exists.mp hdesc
  match hes2 : x.get "element_size" with
  | none => rw [hes2] at hes; simp at hes
  | some esStr =>
    rw [hes2] at hes
    obtain ⟨es, hes3⟩ := Option.isSome_iff_exists.mp hes
    match hne2 : x.get "num_elements" with
    | none => rw [hne2] at hne; simp at hne
    | some s =>
      rw [hne2] at hne
      match het2 : x.get "element_type" with
      | none => rw [het2] at het; simp at het
      | some ts =>
        rw [het2] at het
        obtain ⟨et, het3⟩ := Option.isSome_iff_exists.mp het
        by_cases hv1 : s = "var(1)"
        · subst hv1
          refine ⟨⟨nm, ds, et, es, .var1⟩, ?_⟩
          simp [columnParseXml, htag, hnm, hds, hes2, hes3, hne2, het2, het3]
        · by_cases hv2 : s = "var(2)"
          · subst hv2
            refine ⟨⟨nm, ds, et, es, .var2⟩, ?_⟩
            simp [columnParseXml, htag, hnm, hds, hes2, hes3, hne2, het2,
              het3]
          · simp only [beq_iff_eq, Bool.or_eq_true] at hne
            rcases hne with (hne | hne) | hne
            · exact absurd hne hv1
            · exact absurd hne hv2
            · obtain ⟨k, hk⟩ := Option.isSome_iff_exists.mp hne
              refine ⟨⟨nm, ds, et, es, .fixed k⟩, ?_⟩
              simp [columnParseXml, htag, hnm, hds, hes2, hes3, hne2, het2,
                het3, hv1, hv2, hk]

theorem parseColumns_isOk (xs : List XmlElem)
    (h : xs.all columnXmlOkB = true) :
    ∃ cs, parseColumns xs = .ok cs := by
  induction xs with
  | nil => exact ⟨[], rfl⟩
  | cons x xs ih =>
    simp only [List.all_cons, Bool.and_eq_true] at h
    obtain ⟨c, hc⟩ := columnParseXml_isOk x h.1
    obtain ⟨cs, hcs⟩ := ih h.2
    exact ⟨c :: cs, by simp [parseColumns, hc, hcs]⟩

theorem parseStatsXml_isOk (xs : List XmlElem) :
    ∀ t : WtTable, xs.all statXmlOkB = true →
      ∃ t2, parseStatsXml t xs = .ok t2 := by
  induction xs with
  | nil => exact fun t _ => ⟨t, rfl⟩
  | cons x xs ih =>
    intro t h
    simp only [List.all_cons, Bool.and_eq_true] at h
    obtain ⟨h1, h2⟩ := h
    unfold statXmlOkB at h1
    simp only [Bool.and_eq_true] at h1
    obtain ⟨hnm, hval⟩ := h1
    match hnm2 : x.get "name" with
    | none => rw [hnm2] at hnm; simp at hnm
    | some nm =>
      rw [hnm2] at hnm
      have hpv : ∃ v, parseStatValue x = .ok v := by
        match hv2 : x.get "value" with
        | none => rw [hv2] at hval; simp at hval
        | some vs =>
          rw [hv2] at hval
          obtain ⟨v, hv3⟩ := Option.isSome_iff_exists.mp hval
          exact ⟨v, by simp [parseStatValue, hv2, hv3]⟩
      obtain ⟨v, hv⟩ := hpv
      simp only [beq_iff_eq, Bool.or_eq_true] at hnm
      have hnm' : nm = "num_rows" ∨ nm = "max_row_size" ∨
          nm = "min_row_size" ∨ nm = "total_row_size" := by tauto
      rcases hnm' with h' | h' | h' | h' <;>
        · subst h'
          unfold parseStatsXml
          simp [hnm2, hv]
          exact ih _ h2

theorem setMetadata_isOk (t : WtTable) (root : XmlElem)
    (h : wellFormedMetaB root = true) :
    ∃ t2, setMetadata t root = .ok t2 := by
  unfold wellFormedMetaB at h
  simp only [Bool.and_eq_true, beq_iff_eq] at h
  obtain ⟨⟨⟨htag, hver⟩, hschema⟩, hstats⟩ := h
  match hv2 : root.get "version" with
  | none => rw [hv2] at hver; simp at hver
  | some v =>
    rw [hv2] at hver
    simp only [beq_iff_eq, TABLE_METADATA_VERSION] at hver
    match hs2 : root.findChild "schema" with
    | none => rw [hs2] at hschema; simp at hschema
    | some schema =>
      rw [hs2] at hschema
      have hschemaB : (match schema.findChild "columns" with
          | some cols => cols.children.all columnXmlOkB
          | none => false) = true := hschema
      match hc2 : schema.findChild "columns" with
      | none => rw [hc2] at hschemaB; simp at hschemaB
      | some cols =>
        rw [hc2] at hschemaB
        obtain ⟨cs, hcs⟩ := parseColumns_isOk cols.children hschemaB
        match hst2 : root.findChild "stats" with
        | none => rw [hst2] at hstats; simp at hstats
        | some stats =>
          rw [hst2] at hstats
          obtain ⟨t2, ht2⟩ :=
            parseStatsXml_isOk stats.children
              { t with columns := t.columns ++ cs } hstats
          refine ⟨t2, ?_⟩
          simp [setMetadata, htag, hv2, hver, TABLE_METADATA_VERSION, hs2,
            parseSchemaXml, hc2, hcs, hst2, ht2]

/-! File publication model (Database.finalise_build,
Table.finalise_build).  A file system is the list of paths present; the
finalise methods are sequences of file operations, applied in order. -/

/-- One file operation of the finalisation path: an atomic rename
(shutil.move within one file system) or a direct open-and-write
(Database.write_metadata). -/
inductive FsOp
  | move (src dst : String)
  | write (dst : String)
deriving DecidableEq

/-- Apply one operation to the set of present paths: a move removes the
source and makes the destination present; a write makes the destination
present. -/
def applyOp (fs : List String) : FsOp → List String
  | .move src dst => dst :: fs.filter (fun p => decide (p ≠ src))
  | .write dst => dst :: fs

/-- Apply a sequence of file operations in order. -/
def applyOps (fs : List String) (ops : List FsOp) : List String :=
  ops.foldl applyOp fs

/-- os.path.join for a relative second component. -/
def osPathJoin (a b : String) : String := a ++ "/" ++ b

/-- Database.get_db_path: homedir/table.db. -/
def getDbPath (homedir : String) : String :=
  osPathJoin homedir ("table" ++ ".db")

/-- Database.get_db_build_path: homedir/_build_pid_table.db. -/
def getDbBuildPath (homedir : String) (pid : Nat) : String :=
  osPathJoin homedir ("_build_" ++ toDecimal pid ++ "_" ++ "table" ++ ".db")

/-- Database.get_metadata_path: homedir/table.xml. -/
def getMetadataPath (homedir : String) : String :=
  osPathJoin homedir ("table" ++ ".xml")

/-- Table.get_data_path: homedir/table.dat. -/
def getDataPath (homedir : String) : String :=
  osPathJoin homedir ("table" ++ ".dat")

/-- Table.get_data_build_path: homedir/_build_pid_table.dat. -/
def getDataBuildPath (homedir : String) (pid : Nat) : String :=
  osPathJoin homedir ("_build_" ++ toDecimal pid ++ "_" ++ "table" ++ ".dat")

/-- Database.finalise_build: move the db build file over its permanent
name, then write the metadata file directly at its permanent name. -/
def databaseFinaliseBuild (homedir : String) (pid : Nat) : List FsOp :=
  [.move (getDbBuildPath homedir pid) (getDbPath homedir),
   .write (getMetadataPath homedir)]

/-- Table.finalise_build: the Database steps, then move the data build
file over its permanent name. -/
def tableFinaliseBuild (homedir : String) (pid : Nat) : List FsOp :=
  databaseFinaliseBuild homedir pid ++
    [.move (getDataBuildPath homedir pid) (getDataPath homedir)]

/-- The build files present when a write-mode Table reaches close(). -/
def tableBuildFiles (homedir : String) (pid : Nat) : List String :=
  [getDbBuildPath homedir pid, getDataBuildPath homedir pid]

/-- Database.exists as seen by a reader of a Table: only the metadata
and db files are checked. -/
def tableObserved (homedir : String) (fs : List String) : Prop :=
  getMetadataPath homedir ∈ fs ∧ getDbPath homedir ∈ fs

instance (homedir : String) (fs : List String) :
    Decidable (tableObserved homedir fs) := by
  unfold tableObserved; infer_instance

/-- A complete table on disk: metadata, db and data files all present. -/
def tableComplete (homedir : String) (fs : List String) : Prop :=
  getMetadataPath homedir ∈ fs ∧ getDbPath homedir ∈ fs ∧
    getDataPath homedir ∈ fs

instance (homedir : String) (fs : List String) :
    Decidable (tableComplete homedir fs) := by
  unfold tableComplete; infer_instance

/-! Open/close state machine (Database.verify_open, Table.__len__,
Table.__getitem__, Table.cursor, Table.close, Index.open).  The
low-level object and the open-mode field are set and cleared together,
so a single optional mode models both. -/

/-- The open mode of a Database: WT_READ or WT_WRITE. -/
inductive WtOpenMode
  | read
  | write
deriving DecidableEq

/-- Database.verify_open: with no required mode, the database need only
be open; with a required mode, the open mode must equal it.  A failed
check is a ValueError. -/
def verifyOpenCheck (openMode : Option WtOpenMode)
    (required : Option WtOpenMode) : Except String Unit :=
  match required with
  | none =>
    if openMode = none then .error "Database must be opened" else .ok ()
  | some m =>
    if openMode ≠ some m then
      .error ("Database must be opened in " ++
        (match m with | .write => "write" | .read => "read") ++ " mode")
    else .ok ()

/-- The Table state the lifecycle operations touch: the open mode (none
when closed), the cached row count, and the row count held by the
low-level table. -/
structure TableState where
  mode : Option WtOpenMode
  cachedNumRows : Nat
  llNumRows : Nat
deriving DecidableEq

/-- Table.__len__: verify the table is open in any mode; in read mode a
zero cached count is refreshed from the low-level table, and the cached
count is returned. -/
def tableLen (t : TableState) : Except String (Nat × TableState) :=
  match verifyOpenCheck t.mode none with
  | .error e => .error e
  | .ok _ =>
    if t.mode = some .read ∧ t.cachedNumRows = 0 then
      .ok (t.llNumRows, { t with cachedNumRows := t.llNumRows })
    else .ok (t.cachedNumRows, t)

/-- The integer branch of Table.__getitem__ after len() is taken: a
negative key is shifted once by n, a shifted key that is ≥ n raises
IndexError, and otherwise the (possibly still negative) value is handed
to the low-level get_row. -/
def getItemIndex (n : Int) (key : Int) : Except String Int :=
  let k := if key < 0 then n + key else key
  if k ≥ n then .error "table position out of range" else .ok k

/-- Table.__getitem__ for an integer key: verify read mode, take the
length, then compute the row id handed to get_row. -/
def tableGetItem (t : TableState) (key : Int) : Except String Int :=
  match verifyOpenCheck t.mode (some .read) with
  | .error e => .error e
  | .ok _ =>
    match tableLen t with
    | .error e => .error e
    | .ok p => getItemIndex (Int.ofNat p.1) key

/-- Table.cursor: the verify_open(WT_READ) gate; the row iterator
itself lives in the C extension. -/
def tableCursor (t : TableState) : Except String Unit :=
  match verifyOpenCheck t.mode (some .read) with
  | .error e => .error e
  | .ok _ => .ok ()

/-- Table.close: verify the table is open (in any mode), then close,
finalise a write-mode build, and reset the cached state. -/
def tableClose (t : TableState) : Except String TableState :=
  match verifyOpenCheck t.mode none with
  | .error e => .error e
  | .ok _ => .ok { mode := none, cachedNumRows := 0, llNumRows := t.llNumRows }

/-- Index.open: verify the parent table is open in read mode, then
perform the Database open, returning the index's new open mode.  A
failed verify raises before the index is touched. -/
def indexOpen (tableMode : Option WtOpenMode) (m : WtOpenMode) :
    Except String WtOpenMode :=
  match verifyOpenCheck tableMode (some .read) with
  | .error e => .error e
  | .ok _ => .ok m

/-! Index cursor bounds (Index.cursor and the module constant
KEY_UNSET). -/

/-- A Python value usable as a start or stop argument of Index.cursor;
structural equality models Python equality on these shapes. -/
inductive PyKey
  | pynone
  | pystr (s : String)
  | pyint (n : Int)
  | pytuple (elems : List PyKey)

/-- The module constant KEY_UNSET, defined as the string "KEY_UNSET". -/
def KEY_UNSET : PyKey := .pystr "KEY_UNSET"

/-- Python equality of a cursor bound against the KEY_UNSET constant: a
string compares by value, every other shape compares unequal. -/
def isKeyUnset : PyKey → Bool
  | .pystr s => s == "KEY_UNSET"
  | _ => false

/-- Index.key_to_ll for a one-column index: wrap the value in a
singleton tuple. -/
def keyToLlSingle (v : PyKey) : PyKey := .pytuple [v]

/-- One bound of Index.cursor for a one-column index: the bound is
applied to the iterator unless it equals KEY_UNSET under Python
equality, in which case that end stays unbounded (none). -/
def cursorBound (v : PyKey) : Option PyKey :=
  if isKeyUnset v then none else some (keyToLlSingle v)

/-- Index.cursor bound handling for a one-column index: the min and max
bounds given to the low-level iterator. -/
def indexCursorBounds (start stop : PyKey) : Option PyKey × Option PyKey :=
  (cursorBound start, cursorBound stop)

/-! CLI error path (wtadmin.py, ProgramRunner). -/

/-- An output channel of the CLI process. -/
inductive OutChannel
  | stdout
  | stderr
deriving DecidableEq

/-- The observable effect of ProgramRunner.error: one printed line on a
channel, and the process exit code from sys.exit. -/
structure CliFailure where
  channel : OutChannel
  line : String
  exitCode : Nat
deriving DecidableEq

/-- ProgramRunner.error: print("Error:", s) on the default print
stream, then sys.exit(1). -/
def programRunnerError (s : String) : CliFailure :=
  { channel := .stdout, line := "Error: " ++ s, exitCode := 1 }

/-- ProgramRunner.init up to its failure point: a missing table home
directory reports the error; otherwise the table is opened and the
command proceeds. -/
def programRunnerInit (tableExistsOnDisk : Bool) (homedir : String) :
    Except CliFailure Unit :=
  if !tableExistsOnDisk then
    .error (programRunnerError ("Table '" ++ homedir ++ "' not found"))
  else .ok ()

/-! Index name discovery (Table.indexes).  Python str.replace replaces
every non-overlapping occurrence of the pattern, scanning from the
left; modelled fuel-driven on character lists, with fuel at least the
subject length (the patterns used are nonempty). -/

/-- Worker for Python str.replace with a nonempty pattern. -/
def replaceAllAux (pat rep : List Char) : Nat → List Char → List Char
  | _, [] => []
  | 0, s => s
  | f + 1, c :: cs =>
    if pat.isPrefixOf (c :: cs) then
      rep ++ replaceAllAux pat rep f (List.drop (pat.length - 1) cs)
    else c :: replaceAllAux pat rep f cs

/-- Python str.replace for a nonempty pattern. -/
def pyReplace (s pat rep : String) : String :=
  String.mk (replaceAllAux pat.data rep.data s.data.length s.data)

/-- Index.DB_PREFIX joined to the home directory, as used by
Table.indexes. -/
def indexFileHead (homedir : String) : String := osPathJoin homedir "index_"

/-- The full path of the db file of the index named n
(Index constructor plus Database.get_db_path). -/
def indexDbFile (homedir : String) (n : String) : String :=
  indexFileHead homedir ++ n ++ ".db"

/-- Table.indexes: glob the home directory for files matching
prefix + * + ".db", then strip the prefix and the suffix from each hit
with str.replace (which removes every occurrence, not only the ends). -/
def tableIndexes (homedir : String) (files : List String) : List String :=
  let pre := indexFileHead homedir
  let sfx := ".db"
  let hits := files.filter (fun g =>
    pre.data.isPrefixOf g.data && sfx.data.isSuffixOf g.data &&
      decide (pre.data.length + sfx.data.length ≤ g.data.length))
  hits.map (fun g => pyReplace (pyReplace g pre "") sfx "")

theorem isPrefixOf_nil_false (pat : List Char) (hpat : pat ≠ []) :
    pat.isPrefixOf ([] : List Char) = false := by
  match pat, hpat with
  | p :: ps, _ => rfl

theorem replaceAllAux_no_occ (pat rep : List Char) (_hpat : pat ≠ []) :
    ∀ f s, s.length ≤ f → (∀ i, pat.isPrefixOf (s.drop i) = false) →
      replaceAllAux pat rep f s = s := by
  intro f
  induction f with
  | zero =>
    intro s hlen _
    match s with
    | [] => rfl
    | c :: cs => simp at hlen
  | succ f ih =>
    intro s hlen hocc
    match s with
    | [] => rfl
    | c :: cs =>
      have h0 := hocc 0
      simp only [List.drop_zero] at h0
      simp only [replaceAllAux, h0, Bool.false_eq_true, if_false]
      have hrest : ∀ i, pat.isPrefixOf (cs.drop i) = false := by
        intro i
        have := hocc (i + 1)
        simpa using this
      rw [ih cs (by simpa using hlen) hrest]

theorem replaceAllAux_head (pat rep rest : List Char) (hpat : pat ≠ [])
    (f : Nat) :
    replaceAllAux pat rep (f + 1) (pat ++ rest) =
      rep ++ replaceAllAux pat rep f rest := by
  match pat with
  | p :: ps =>
    have hpre : (p :: ps).isPrefixOf ((p :: ps) ++ rest) = true := by
      rw [List.isPrefixOf_iff_prefix]
      exact List.prefix_append (p :: ps) rest
    simp only [List.cons_append] at hpre
    simp only [List.cons_append, List.append_eq, replaceAllAux, hpre,
      if_true, List.length_cons, Nat.add_sub_cancel]
    rw [List.drop_left ps rest]

theorem replaceAllAux_strip_head (pre rest : List Char) (hpat : pre ≠ [])
    (f : Nat) (hf : (pre ++ rest).length ≤ f)
    (hocc : ∀ i, pre.isPrefixOf (rest.drop i) = false) :
    replaceAllAux pre [] f (pre ++ rest) = rest := by
  have hpos : 1 ≤ pre.length := List.length_pos.mpr hpat
  match f with
  | 0 =>
    exfalso
    simp only [List.length_append] at hf
    omega
  | f + 1 =>
    rw [replaceAllAux_head pre [] rest hpat f, List.nil_append]
    apply replaceAllAux_no_occ pre [] hpat f rest ?_ hocc
    simp only [List.length_append] at hf
    omega

theorem replaceAllAux_tail_occ (pat : List Char) (hpat : pat ≠ []) :
    ∀ s f, (s ++ pat).length ≤ f →
      (∀ i, i < s.length → pat.isPrefixOf ((s ++ pat).drop i) = false) →
      replaceAllAux pat [] f (s ++ pat) = s := by
  intro s
  induction s with
  | nil =>
    intro f hlen _
    simp only [List.nil_append] at hlen ⊢
    have hpos : 1 ≤ pat.length := List.length_pos.mpr hpat
    match f with
    | 0 => omega
    | f + 1 =>
      have := replaceAllAux_head pat [] [] hpat f
      simp only [List.append_nil, List.nil_append] at this
      rw [this]
      match f with
      | 0 => rfl
      | _ + 1 => rfl
  | cons c cs ih =>
    intro f hlen hocc
    match f with
    | 0 => simp at hlen
    | f + 1 =>
      have h0 := hocc 0 (by simp)
      simp only [List.cons_append, List.drop_zero] at h0
      simp only [List.cons_append, List.append_eq, replaceAllAux, h0,
        Bool.false_eq_true, if_false]
      have hrest : ∀ i, i < cs.length →
          pat.isPrefixOf ((cs ++ pat).drop i) = false := by
        intro i hi
        have := hocc (i + 1) (by simpa using Nat.succ_lt_succ hi)
        simpa using this
      rw [ih f (by simpa using hlen) hrest]

/-- A name is cleanly recoverable from its index db file when the
directory head occurs nowhere in name-plus-suffix and ".db" occurs in
it only as the final suffix. -/
def cleanIndexName (homedir M : String) : Prop :=
  (∀ i, i ≤ (M ++ ".db").data.length →
    (indexFileHead homedir).data.isPrefixOf ((M ++ ".db").data.drop i)
      = false) ∧
  (∀ i, i < M.data.length →
    (".db" : String).data.isPrefixOf ((M ++ ".db").data.drop i) = false)

instance (homedir M : String) : Decidable (cleanIndexName homedir M) := by
  unfold cleanIndexName
  infer_instance

theorem indexFileHead_data_ne (homedir : String) :
    (indexFileHead homedir).data ≠ [] := by
  simp only [indexFileHead, osPathJoin, String.data_append]
  intro hc
  rcases List.append_eq_nil.mp hc with ⟨hc1, hc2⟩
  rcases List.append_eq_nil.mp hc1 with ⟨_, hc3⟩
  exact absurd hc3 (by decide)

theorem pyReplace_strip_clean (homedir M : String)
    (hM : cleanIndexName homedir M) :
    pyReplace (pyReplace (indexDbFile homedir M) (indexFileHead homedir) "")
      ".db" "" = M := by
  obtain ⟨h1, h2⟩ := hM
  have hpre := indexFileHead_data_ne homedir
  have hsfx : (".db" : String).data ≠ [] := by decide
  have hdata : (indexDbFile homedir M).data =
      (indexFileHead homedir).data ++ (M ++ ".db").data := by
    simp [indexDbFile, String.data_append]
  have h1' : ∀ i, (indexFileHead homedir).data.isPrefixOf
      ((M ++ ".db").data.drop i) = false := by
    intro i
    by_cases hi : i ≤ (M ++ ".db").data.length
    · exact h1 i hi
    · rw [List.drop_eq_nil_of_le (by omega)]
      exact isPrefixOf_nil_false _ hpre
  have step1 : pyReplace (indexDbFile homedir M) (indexFileHead homedir) ""
      = M ++ ".db" := by
    show String.mk _ = M ++ ".db"
    rw [hdata, replaceAllAux_strip_head _ _ hpre _ (le_refl _) h1']
  rw [step1]
  have hdata2 : (M ++ ".db").data = M.data ++ (".db" : String).data := by
    simp [String.data_append]
  have h2' : ∀ i, i < M.data.length → (".db" : String).data.isPrefixOf
      ((M.data ++ (".db" : String).data).drop i) = false := by
    intro i hi
    have := h2 i hi
    rwa [hdata2] at this
  show String.mk _ = M
  rw [hdata2, replaceAllAux_tail_occ _ hsfx M.data _ (le_refl _) h2']

theorem tableIndexes_filter_accept (homedir M : String) :
    ((indexFileHead homedir).data.isPrefixOf (indexDbFile homedir M).data &&
      (".db" : String).data.isSuffixOf (indexDbFile homedir M).data &&
      decide ((indexFileHead homedir).data.length +
        (".db" : String).data.length ≤ (indexDbFile homedir M).data.length))
      = true := by
  have hdata : (indexDbFile homedir M).data =
      ((indexFileHead homedir).data ++ M.data) ++ (".db" : String).data := by
    simp [indexDbFile, String.data_append]
  rw [hdata]
  simp only [Bool.and_eq_true, decide_eq_true_eq]
  refine ⟨⟨?_, ?_⟩, ?_⟩
  · rw [List.append_assoc, List.isPrefixOf_iff_prefix]
    exact List.prefix_append _ _
  · rw [List.isSuffixOf_iff_suffix]
    exact List.suffix_append _ _
  · simp only [List.length_append]
    omega

theorem tableIndexes_mem_iff (homedir : String) (files : List String)
    (N : String)
    (hfiles : ∀ g ∈ files, ∃ M, cleanIndexName homedir M ∧
      g = indexDbFile homedir M)
    (hN : cleanIndexName homedir N) :
    N ∈ tableIndexes homedir files ↔ indexDbFile homedir N ∈ files := by
  simp only [tableIndexes, List.mem_map, List.mem_filter]
  constructor
  · rintro ⟨g, ⟨hgmem, hgfilter⟩, hgstrip⟩
    obtain ⟨M, hMclean, hMfile⟩ := hfiles g hgmem
    rw [hMfile] at hgstrip
    rw [pyReplace_strip_clean homedir M hMclean] at hgstrip
    rw [hMfile, hgstrip] at hgmem
    exact hgmem
  · intro hmem
    refine ⟨indexDbFile homedir N, ⟨hmem, ?_⟩, ?_⟩
    · exact tableIndexes_filter_accept homedir N
    · exact pyReplace_strip_clean homedir N hN

/-! Value formatting (Column.format_value). -/

/-- A decoded low-level value handed to format_value: a byte string
(char columns), a numeric scalar, or a tuple of numeric elements.
Numeric elements are integers here; the decode of a byte string is the
identity on this representation. -/
inductive WtValue
  | vbytes (s : String)
  | vint (n : Int)
  | vtuple (l : List Int)
deriving DecidableEq

/-- The value shapes the read path produces for a column. -/
def canHold (c : WtColumn) (v : WtValue) : Prop :=
  match c.elementType, v with
  | .char, .vbytes _ => True
  | .char, _ => False
  | _, .vbytes _ => False
  | _, .vint _ => c.numElements = .fixed 1
  | _, .vtuple _ => c.numElements ≠ .fixed 1

/-- Column.format_value: None prints "NA"; a char value is decoded; a
scalar is printed with str; anything else is comma-joined inside
parentheses.  A shape the column cannot hold would raise in Python,
modelled as none. -/
def formatValue (c : WtColumn) (v : Option WtValue) : Option String :=
  match v with
  | none => some "NA"
  | some w =>
    if c.elementType = .char then
      match w with
      | .vbytes s => some s
      | _ => none
    else if c.numElements = .fixed 1 then
      match w with
      | .vint n => some (intToDecimal n)
      | _ => none
    else
      match w with
      | .vtuple l =>
        some ("(" ++ String.intercalate "," (l.map intToDecimal) ++ ")")
      | _ => none

/-! Claim theorems. -/

/-- Claim C1, counterexample: after the first two steps of a write-mode
Table close (rename of the db file, then the direct write of the
metadata file), a reader already observes the table while the permanent
data file is absent and the data build file still dangles; moreover the
metadata step is a plain write, not a rename, and it is not the final
step.  This refutes the claim that close publishes atomically and
rename-last with no torn intermediate state. -/
theorem claimC1_counterexample :
    tableObserved "home"
      (applyOps (tableBuildFiles "home" 1234)
        ((tableFinaliseBuild "home" 1234).take 2)) ∧
    ¬ tableComplete "home"
      (applyOps (tableBuildFiles "home" 1234)
        ((tableFinaliseBuild "home" 1234).take 2)) ∧
    getDataBuildPath "home" 1234 ∈
      applyOps (tableBuildFiles "home" 1234)
        ((tableFinaliseBuild "home" 1234).take 2) ∧
    List.get? (tableFinaliseBuild "home" 1234) 1 =
      some (FsOp.write (getMetadataPath "home")) := by
  decide

/-- Claim C1, amended: close() of a write-mode Table renames the db
build file, then writes the metadata document directly at its permanent
name, then renames the data build file last.  The final state is a
complete table with no build files, but at the intermediate point after
the metadata write a reader observes the table while the permanent data
file is absent and the data build file still exists, so publication is
not atomic and the metadata is not committed by a rename. -/
theorem claimC1_amended (h : String) (pid : Nat)
    (hd : List.Pairwise (fun a b => a ≠ b)
      [getDbPath h, getMetadataPath h, getDataPath h,
       getDbBuildPath h pid, getDataBuildPath h pid]) :
    (tableComplete h
        (applyOps (tableBuildFiles h pid) (tableFinaliseBuild h pid)) ∧
      getDbBuildPath h pid ∉
        applyOps (tableBuildFiles h pid) (tableFinaliseBuild h pid) ∧
      getDataBuildPath h pid ∉
        applyOps (tableBuildFiles h pid) (tableFinaliseBuild h pid)) ∧
    (tableObserved h
        (applyOps (tableBuildFiles h pid)
          ((tableFinaliseBuild h pid).take 2)) ∧
      getDataPath h ∉
        applyOps (tableBuildFiles h pid)
          ((tableFinaliseBuild h pid).take 2) ∧
      getDataBuildPath h pid ∈
        applyOps (tableBuildFiles h pid)
          ((tableFinaliseBuild h pid).take 2)) := by
  simp only [List.pairwise_cons, List.mem_cons, List.mem_singleton,
    List.not_mem_nil, forall_eq_or_imp, forall_eq, List.Pairwise.nil,
    and_true] at hd
  obtain ⟨⟨hdbm, hdbd, hdbb1, hdbb2, -⟩, ⟨hmd, hmb1, hmb2, -⟩,
    ⟨hdb1, hdb2, -⟩, ⟨hb12, -⟩, -⟩ := hd
  simp [tableFinaliseBuild, databaseFinaliseBuild, tableBuildFiles,
    applyOps, applyOp, tableComplete, tableObserved,
    Ne.symm hdbb1, Ne.symm hdbb2, Ne.symm hmb1, Ne.symm hmb2,
    Ne.symm hdb1, Ne.symm hdb2, Ne.symm hb12,
    hdbb1, hdbb2, hmb1, hmb2, hdb1, hdb2, hb12,
    hdbm, hdbd, hmd, Ne.symm hdbm, Ne.symm hdbd, Ne.symm hmd]

/-- Claim C1, witness: at a concrete home directory and pid the five
paths are pairwise distinct and the amended statement applies. -/
theorem claimC1_witness :
    tableComplete "home"
      (applyOps (tableBuildFiles "home" 1234)
        (tableFinaliseBuild "home" 1234)) ∧
    tableObserved "home"
      (applyOps (tableBuildFiles "home" 1234)
        ((tableFinaliseBuild "home" 1234).take 2)) :=
  ⟨(claimC1_amended "home" 1234 (by decide)).1.1,
   (claimC1_amended "home" 1234 (by decide)).2.1⟩

/-- Claim C2: for every well-formed schema (columns with positive fixed
arity or the var(1)/var(2) sentinels) together with its stats,
set_metadata applied to the output of get_metadata restores an equal
table: the same columns in the same order with identical names,
descriptions, types, element sizes and arities (names and descriptions
preserved byte for byte), and the same stats. -/
theorem claimC2 (t : WtTable)
    (_hwf : ∀ c ∈ t.columns, c.numElements ≠ .fixed 0) :
    setMetadata freshTable (getMetadata t) = .ok t :=
  setMetadata_getMetadata t

/-- Claim C2, witness: the round trip at a concrete two-column table. -/
theorem claimC2_witness :
    setMetadata freshTable
      (getMetadata
        ⟨[⟨"chrom", "chromosome name", .char, 1, .var1⟩,
          ⟨"pos", "position", .uint, 4, .fixed 1⟩], 5, 120, 10, 40⟩)
      = .ok
        ⟨[⟨"chrom", "chromosome name", .char, 1, .var1⟩,
          ⟨"pos", "position", .uint, 4, .fixed 1⟩], 5, 120, 10, 40⟩ :=
  claimC2
    ⟨[⟨"chrom", "chromosome name", .char, 1, .var1⟩,
      ⟨"pos", "position", .uint, 4, .fixed 1⟩], 5, 120, 10, 40⟩
    (by decide)

/-- Claim C3, counterexample: with one row, get(-2) wraps to -1, which
the out-of-range guard (k >= n) does not catch, so __getitem__ neither
raises NotFound nor reads row (-2) mod 1 = 0; it hands the negative
value -1 to the low-level get_row. -/
theorem claimC3_counterexample :
    getItemIndex 1 (-2) = .ok (-1) ∧
    (-2 : Int) % (1 : Int) = 0 ∧ ((-1 : Int) ≠ 0) :=
  ⟨rfl, by decide, by decide⟩

/-- Claim C3, amended: for a table of length n, get(i) returns row i
for 0 <= i < n; a negative i with -n <= i wraps to i mod n; i >= n
raises IndexError; but an i < -n is not caught by the range guard and
the still-negative value n + i is passed on to the low-level get_row
instead of raising. -/
theorem claimC3_amended (n key : Int) (hn : 0 ≤ n) :
    (0 ≤ key → key < n → getItemIndex n key = .ok key) ∧
    (-n ≤ key → key < 0 → getItemIndex n key = .ok (key % n)) ∧
    (n ≤ key → getItemIndex n key = .error "table position out of range") ∧
    (key < -n → getItemIndex n key = .ok (n + key) ∧ n + key < 0) := by
  refine ⟨?_, ?_, ?_, ?_⟩
  · intro h0 hlt
    simp only [getItemIndex, if_neg (by omega : ¬ key < 0),
      if_neg (by omega : ¬ key ≥ n)]
  · intro hge hlt
    have hnpos : 0 < n := by omega
    have hmod : key % n = n + key := by
      have h1 : (key + n) % n = key % n := by
        have hx := Int.add_mul_emod_self_left key n 1
        rw [mul_one] at hx
        exact hx
      have h2 : (key + n) % n = key + n :=
        Int.emod_eq_of_lt (by omega) (by omega)
      omega
    simp only [getItemIndex, if_pos hlt, if_neg (by omega : ¬ n + key ≥ n),
      hmod]
  · intro hge
    simp only [getItemIndex, if_neg (by omega : ¬ key < 0),
      if_pos (by omega : key ≥ n)]
  · intro hlt
    refine ⟨?_, by omega⟩
    simp only [getItemIndex, if_pos (by omega : key < 0),
      if_neg (by omega : ¬ n + key ≥ n)]

/-- Claim C3, witness: with three rows, get(-2) returns row (-2) mod 3. -/
theorem claimC3_witness : getItemIndex 3 (-2) = .ok ((-2 : Int) % 3) :=
  (claimC3_amended 3 (-2) (by decide)).2.1 (by decide) (by decide)

/-- Claim C4, counterexample: len() on a Table open in write mode does
not fail; verify_open is called with no required mode, so len()
succeeds and returns the cached row count.  This refutes the claim that
len() called on a write-mode table fails. -/
theorem claimC4_counterexample :
    tableLen { mode := some .write, cachedNumRows := 5, llNumRows := 7 }
      = .ok (5, { mode := some .write, cachedNumRows := 5, llNumRows := 7 }) := by
  rfl

/-- Claim C4, amended: every listed operation on a closed Table fails
immediately (len, get, cursor, and close on an already-closed table),
and get and cursor fail on a write-mode table before any side effect;
len, however, only requires the table to be open and succeeds in write
mode, returning the cached row count without touching the state. -/
theorem claimC4_amended (t₁ t₂ : TableState) (key : Int)
    (h₁ : t₁.mode = none) (h₂ : t₂.mode = some .write) :
    (∃ e, tableLen t₁ = .error e) ∧
    (∃ e, tableGetItem t₁ key = .error e) ∧
    (∃ e, tableCursor t₁ = .error e) ∧
    (∃ e, tableClose t₁ = .error e) ∧
    (∃ e, tableGetItem t₂ key = .error e) ∧
    (∃ e, tableCursor t₂ = .error e) ∧
    tableLen t₂ = .ok (t₂.cachedNumRows, t₂) := by
  refine ⟨?_, ?_, ?_, ?_, ?_, ?_, ?_⟩ <;>
    simp [tableLen, tableGetItem, tableCursor, tableClose,
      verifyOpenCheck, h₁, h₂]

/-- Claim C4, witness: the amended statement at a closed table and a
write-mode table with two cached rows. -/
theorem claimC4_witness :
    (∃ e, tableLen { mode := none, cachedNumRows := 0, llNumRows := 0 }
      = .error e) ∧
    tableLen { mode := some .write, cachedNumRows := 2, llNumRows := 0 }
      = .ok (2, { mode := some .write, cachedNumRows := 2, llNumRows := 0 }) :=
  ⟨(claimC4_amended ⟨none, 0, 0⟩ ⟨some .write, 2, 0⟩ 0 rfl rfl).1,
   (claimC4_amended ⟨none, 0, 0⟩ ⟨some .write, 2, 0⟩ 0 rfl rfl).2.2.2.2.2.2⟩

/-- Claim C5: set_metadata rejects a document whose root tag is schema
(the pre-0.3 layout) with the dedicated rebuild message, rejects every
other root tag that is not table, rejects an absent or non-0.3 version
attribute, the stats parser rejects a stat element whose name is
outside the four known statistics, and a well-formed version-0.3
document is accepted without error. -/
theorem claimC5 (t : WtTable) (d₁ d₂ d₃ : XmlElem)
    (stat : XmlElem) (rest : List XmlElem) (nm : String) (d₅ : XmlElem)
    (h₁ : d₁.tag = "schema")
    (h₂ : d₂.tag ≠ "schema") (h₂b : d₂.tag ≠ "table")
    (h₃ : d₃.tag = "table")
    (h₃b : ∀ s, d₃.get "version" = some s → s ≠ "0.3")
    (h₄ : stat.get "name" = some nm)
    (h₄b : nm ≠ "num_rows") (h₄c : nm ≠ "max_row_size")
    (h₄d : nm ≠ "min_row_size") (h₄e : nm ≠ "total_row_size")
    (h₅ : wellFormedMetaB d₅ = true) :
    setMetadata t d₁ = .error "You are trying to read a table built with a pre-release version of wormtable which is not compatible. You must rebuild this table. Sorry." ∧
    setMetadata t d₂ = .error "invalid xml" ∧
    setMetadata t d₃ = .error (match d₃.get "version" with
      | none => "invalid xml"
      | some _ => "Unsupported schema version - rebuild required.") ∧
    parseStatsXml t (stat :: rest) =
      .error ("unknown table statistic '" ++ nm ++ "'") ∧
    (∃ t2, setMetadata t d₅ = .ok t2) := by
  refine ⟨?_, ?_, ?_, ?_, setMetadata_isOk t d₅ h₅⟩
  · simp [setMetadata, h₁]
  · simp [setMetadata, h₂, h₂b]
  · match hv : d₃.get "version" with
    | none => simp [setMetadata, h₃, h₂b, hv]
    | some s =>
      have hne := h₃b s hv
      simp [setMetadata, h₃, hv, TABLE_METADATA_VERSION, hne]
  · unfold parseStatsXml
    simp [h₄, h₄b, h₄c, h₄d, h₄e]

/-- Claim C5, witness: the validation behaviour at concrete documents,
including acceptance of the metadata document of a fresh table. -/
theorem claimC5_witness :
    setMetadata freshTable ⟨"bogus", [], []⟩ = .error "invalid xml" ∧
    parseStatsXml freshTable
      [⟨"stat", [("name", "foo"), ("value", "3")], []⟩] =
      .error ("unknown table statistic '" ++ "foo" ++ "'") ∧
    (∃ t2, setMetadata freshTable (getMetadata freshTable) = .ok t2) := by
  have h3b : ∀ s,
      (XmlElem.mk "table" [("version", "0.2")] []).get "version" = some s →
        s ≠ "0.3" := by
    intro s hs
    have heq : (XmlElem.mk "table" [("version", "0.2")] []).get "version"
        = some "0.2" := by decide
    rw [heq] at hs
    have hs2 : "0.2" = s := Option.some.inj hs
    subst hs2
    decide
  have h := claimC5 freshTable ⟨"schema", [], []⟩ ⟨"bogus", [], []⟩
    ⟨"table", [("version", "0.2")], []⟩
    ⟨"stat", [("name", "foo"), ("value", "3")], []⟩ [] "foo"
    (getMetadata freshTable) rfl (by decide) (by decide) rfl h3b rfl
    (by decide) (by decide) (by decide) (by decide) (by decide)
  exact ⟨h.2.1, h.2.2.2.1, h.2.2.2.2⟩

/-- Claim C6, counterexample: KEY_UNSET is the plain string
"KEY_UNSET", so the valid char key "KEY_UNSET" passed as a start bound
is treated as unbounded instead of being applied as a bound, refuting
the claim that the sentinel is distinct from every valid key value. -/
theorem claimC6_counterexample :
    cursorBound (.pystr "KEY_UNSET") = none ∧
    indexCursorBounds (.pystr "KEY_UNSET") .pynone =
      (none, some (.pytuple [.pynone])) :=
  ⟨rfl, rfl⟩

/-- Claim C6, amended: a bound equal to KEY_UNSET under Python equality
is unbounded, and every other value — including the key None and every
string other than "KEY_UNSET" — is applied as a bound; the sentinel is
however not distinct from every valid key, because the char key
"KEY_UNSET" itself is treated as unbounded. -/
theorem claimC6_amended (v : PyKey) (s : String)
    (hv : isKeyUnset v = false) (hs : s ≠ "KEY_UNSET") :
    cursorBound v = some (keyToLlSingle v) ∧
    cursorBound (.pystr s) = some (keyToLlSingle (.pystr s)) ∧
    cursorBound .pynone = some (keyToLlSingle .pynone) ∧
    cursorBound (.pystr "KEY_UNSET") = none := by
  refine ⟨?_, ?_, rfl, rfl⟩
  · simp [cursorBound, hv]
  · simp [cursorBound, isKeyUnset, hs]

/-- Claim C6, witness: an integer key and the string key "chrom" are
both applied as bounds. -/
theorem claimC6_witness :
    cursorBound (.pyint 5) = some (keyToLlSingle (.pyint 5)) ∧
    cursorBound (.pystr "chrom") = some (keyToLlSingle (.pystr "chrom")) :=
  ⟨(claimC6_amended (.pyint 5) "chrom" rfl (by decide)).1,
   (claimC6_amended (.pyint 5) "chrom" rfl (by decide)).2.1⟩

/-- Claim C7, counterexample: for the index name a.dbb, the file
index_a.dbb.db exists, but indexes() reports the name ab, because
str.replace removes every occurrence of .db rather than only the final
suffix.  So indexes() does not yield exactly the names present. -/
theorem claimC7_counterexample :
    indexDbFile "home" "a.dbb" = "home/index_a.dbb.db" ∧
    tableIndexes "home" ["home/index_a.dbb.db"] = ["ab"] ∧
    "a.dbb" ∉ tableIndexes "home" ["home/index_a.dbb.db"] := by
  decide

/-- Claim C7, amended: indexes() yields the name N if and only if the
file index_N.db exists in the home directory, provided every index file
in the directory has a clean name: one in which the path head
homedir/index_ never reoccurs and .db occurs only as the final suffix.
Names containing .db (or reoccurrences of the head) are misreported. -/
theorem claimC7_amended (homedir : String) (files : List String)
    (N : String)
    (hfiles : ∀ g ∈ files, ∃ M, cleanIndexName homedir M ∧
      g = indexDbFile homedir M)
    (hN : cleanIndexName homedir N) :
    N ∈ tableIndexes homedir files ↔ indexDbFile homedir N ∈ files :=
  tableIndexes_mem_iff homedir files N hfiles hN

/-- Claim C7, witness: a clean name chrom is enumerated exactly when
its index file is present. -/
theorem claimC7_witness :
    "chrom" ∈ tableIndexes "home" ["home/index_chrom.db"] ↔
      indexDbFile "home" "chrom" ∈ ["home/index_chrom.db"] := by
  refine claimC7_amended "home" ["home/index_chrom.db"] "chrom" ?_
    (by decide)
  intro g hg
  simp only [List.mem_singleton] at hg
  subst hg
  exact ⟨"chrom", by decide, by decide⟩

/-- Claim C8, counterexample: ProgramRunner.error prints its single
Error line on standard output, not standard error, refuting the claim
that the message goes to stderr. -/
theorem claimC8_counterexample :
    (programRunnerError "Table 'x' not found").channel = .stdout ∧
    (programRunnerError "Table 'x' not found").channel ≠ .stderr :=
  ⟨rfl, by decide⟩

/-- Claim C8, amended: a wtadmin error prints exactly one line of the
form Error: message — on standard output rather than standard error —
and exits with code 1; a successful run proceeds normally (exit code
0).  A missing table home directory takes exactly this error path. -/
theorem claimC8_amended (s homedir : String) :
    programRunnerError s =
      { channel := .stdout, line := "Error: " ++ s, exitCode := 1 } ∧
    programRunnerInit false homedir =
      .error (programRunnerError ("Table '" ++ homedir ++ "' not found")) ∧
    programRunnerInit true homedir = .ok () :=
  ⟨rfl, rfl, rfl⟩

/-- Claim C9: format_value renders a missing value as NA, the value of
a char column as its decoded text, a numeric scalar (num_elements one)
as its decimal text, and a fixed-arity numeric list as its elements
comma-separated inside parentheses. -/
theorem claimC9 (c₁ c₂ c₃ : WtColumn) (s : String) (n : Int)
    (l : List Int) (k : Nat)
    (h₁ : c₁.elementType = .char)
    (h₂ : c₂.elementType ≠ .char) (h₂b : c₂.numElements = .fixed 1)
    (h₃ : c₃.elementType ≠ .char) (h₃b : c₃.numElements = .fixed k)
    (h₃c : k ≠ 1) :
    formatValue c₁ none = some "NA" ∧
    formatValue c₂ none = some "NA" ∧
    formatValue c₃ none = some "NA" ∧
    formatValue c₁ (some (.vbytes s)) = some s ∧
    formatValue c₂ (some (.vint n)) = some (intToDecimal n) ∧
    formatValue c₃ (some (.vtuple l)) =
      some ("(" ++ String.intercalate "," (l.map intToDecimal) ++ ")") := by
  refine ⟨rfl, rfl, rfl, ?_, ?_, ?_⟩
  · simp [formatValue, h₁]
  · simp [formatValue, h₂, h₂b]
  · simp [formatValue, h₃, h₃b, h₃c]

/-- Claim C9, witness: concrete renderings for a char column, a scalar
column and a three-element list column. -/
theorem claimC9_witness :
    formatValue ⟨"ref", "", .char, 1, .var1⟩ (some (.vbytes "ACGT"))
      = some "ACGT" ∧
    formatValue ⟨"pos", "", .uint, 4, .fixed 1⟩ (some (.vint (-5)))
      = some (intToDecimal (-5)) ∧
    formatValue ⟨"gt", "", .int, 2, .fixed 3⟩ (some (.vtuple [1, -2, 3]))
      = some ("(" ++ String.intercalate ","
          ([(1 : Int), -2, 3].map intToDecimal) ++ ")") := by
  have h := claimC9 ⟨"ref", "", .char, 1, .var1⟩
    ⟨"pos", "", .uint, 4, .fixed 1⟩ ⟨"gt", "", .int, 2, .fixed 3⟩
    "ACGT" (-5) [1, -2, 3] 3 rfl (by decide) rfl (by decide) rfl
    (by decide)
  exact ⟨h.2.2.2.1, h.2.2.2.2.1, h.2.2.2.2.2⟩

/-- Claim C10: Index.open raises whenever the parent Table is not open
in read mode (closed or open for writing) without opening the index,
and conversely an Index can only enter the open state while its Table
is open for reading. -/
theorem claimC10 (tm : Option WtOpenMode) (m : WtOpenMode)
    (h : tm ≠ some .read) :
    (∃ e, indexOpen tm m = .error e) ∧
    (∀ (tm2 : Option WtOpenMode) (r : WtOpenMode),
      indexOpen tm2 m = .ok r → tm2 = some .read) := by
  constructor
  · have herr : indexOpen tm m =
        .error ("Database must be opened in " ++ "read" ++ " mode") := by
      simp [indexOpen, verifyOpenCheck, h]
    exact ⟨_, herr⟩
  · intro tm2 r hok
    by_cases h2 : tm2 = some .read
    · exact h2
    · simp [indexOpen, verifyOpenCheck, h2] at hok

/-- Claim C10, witness: opening an index fails when the table is open
for writing. -/
theorem claimC10_witness :
    (∃ e, indexOpen (some .write) .read = .error e) ∧
    (∀ (tm2 : Option WtOpenMode) (r : WtOpenMode),
      indexOpen tm2 .read = .ok r → tm2 = some .read) :=
  claimC10 (some .write) .read (by decide)

end Wormtable
